import Mathlib

/-!
Verification of the spectrum proxy session relay against its specification.

The Go source is shallowly embedded: raw payloads are lists of naturals,
packets are an abstract type `Pk`, and the external collaborators of the
session (header parsing, the packet pool, the protocol reader and writer,
`ConvertToLatest`) are collected in an `Env` record of pure functions.
The two relay loops are modelled one step at a time: `handleClientBatch`
processes one client batch exactly as the Go function of the same name,
returning the argument of the single `Processor.ProcessClient` call and the
argument of the single `ServerConn.WriteBatch` call (or the error that
aborted the batch); `handleServerPacket` models the decoded-packet arm of
`handleServer`; `handleReadError` models its read-error handling;
`handleLatencyTick` models one tick of `handleLatency`.
-/

namespace Spectrum

/-- Raw payload bytes, modelled as a list of naturals. -/
abbrev Bytes := List Nat

/-- Context of a non-packet action (session/processor.go): holds only the
canceled flag. -/
structure Context where
  canceled : Bool
deriving DecidableEq

/-- NewContext returns a fresh context. -/
def NewContext : Context :=
  { canceled := false }

/-- Cancel marks the context as canceled. -/
def Context.Cancel (c : Context) : Context :=
  { c with canceled := true }

/-- Cancelled returns whether the context has been cancelled. -/
def Context.Cancelled (c : Context) : Bool :=
  c.canceled

/-- Per-packet interception record: a raw payload, an optional decoded
packet, the canceled flag and the modified flag. -/
structure PacketContext (Pk : Type) where
  raw : Bytes
  decoded : Option Pk
  canceled : Bool
  modified : Bool
deriving DecidableEq

/-- NewPacketContext builds a context for a payload with both flags clear,
as every allocation site in the source does. -/
def NewPacketContext {Pk : Type} (raw : Bytes) (decoded : Option Pk) : PacketContext Pk :=
  { raw := raw, decoded := decoded, canceled := false, modified := false }

/-- Cancel marks the packet context as canceled. -/
def PacketContext.Cancel {Pk : Type} (c : PacketContext Pk) : PacketContext Pk :=
  { c with canceled := true }

/-- Cancelled returns whether the packet context has been cancelled. -/
def PacketContext.Cancelled {Pk : Type} (c : PacketContext Pk) : Bool :=
  c.canceled

/-- SetModified marks the packet as modified by the processor. -/
def PacketContext.SetModified {Pk : Type} (c : PacketContext Pk) : PacketContext Pk :=
  { c with modified := true }

/-- Modified returns whether the packet has been modified by the processor. -/
def PacketContext.Modified {Pk : Type} (c : PacketContext Pk) : Bool :=
  c.modified

/-- Exported flag-writing operations of a PacketContext. -/
inductive PCOp where
  | cancel : PCOp
  | setModified : PCOp
deriving DecidableEq

/-- Application of one exported operation to a packet context. -/
def PacketContext.applyOp {Pk : Type} (c : PacketContext Pk) : PCOp → PacketContext Pk
  | .cancel => c.Cancel
  | .setModified => c.SetModified

/-- Application of a sequence of exported operations, in order. -/
def PacketContext.applyOps {Pk : Type} (c : PacketContext Pk) (ops : List PCOp) : PacketContext Pk :=
  ops.foldl PacketContext.applyOp c

/-- Session options relevant to the relay: SyncProtocol and the ClientDecode
id list. -/
structure Opts where
  SyncProtocol : Bool
  ClientDecode : List Nat
deriving DecidableEq

/-- External collaborators of the session, as pure functions. `readHeader`
is `header.Read` (packet id and the rest of the buffer, or failure);
`poolHas` is membership of an id in the client protocol pool; `marshal` is
`pkFunc()` followed by `Marshal` on the protocol reader (the decoded packet
and the bytes left in the buffer); `convertToLatest` is
`Proto().ConvertToLatest`; `encode` writes the packet header followed by
the marshalled body with the writer of the chosen protocol, the boolean
selecting the client protocol (true) or the latest protocol (false);
`clientProtoID` is `Proto().ID()` and `currentProtocol` is the latest
protocol id constant. -/
structure Env (Pk : Type) where
  readHeader : Bytes → Option (Nat × Bytes)
  poolHas : Nat → Bool
  marshal : Nat → Bytes → Pk × Bytes
  convertToLatest : Pk → List Pk
  encode : Bool → Pk → Bytes
  clientProtoID : Nat
  currentProtocol : Nat

/-- Errors decodeAndCreateContext returns. -/
inductive DecodeErr where
  | badHeader : DecodeErr
  | unknownId : Nat → DecodeErr
  | extraBytes : Nat → DecodeErr
deriving DecidableEq

/-- Embedding of decodeAndCreateContext: parse the header, look the id up
in the pool, pass raw through when the id is not in ClientDecode and
either SyncProtocol is set or the client is on the latest protocol;
otherwise decode, report leftover bytes, and in legacy mode upgrade the
decoded packet keeping only the first converted packet (skipping the
payload when conversion is empty). -/
def decodeAndCreateContext {Pk : Type} (env : Env Pk) (opts : Opts) (payload : Bytes) :
    Except DecodeErr (Option (PacketContext Pk)) :=
  match env.readHeader payload with
  | none => .error .badHeader
  | some (pid, buf) =>
    if env.poolHas pid then
      if !(opts.ClientDecode.contains pid) &&
          (opts.SyncProtocol || (env.clientProtoID == env.currentProtocol)) then
        .ok (some (NewPacketContext payload none))
      else
        if 0 < (env.marshal pid buf).2.length then
          .error (.extraBytes (env.marshal pid buf).2.length)
        else if !opts.SyncProtocol && !(env.clientProtoID == env.currentProtocol) then
          match env.convertToLatest (env.marshal pid buf).1 with
          | [] => .ok none
          | upgraded :: _ => .ok (some (NewPacketContext payload (some upgraded)))
        else
          .ok (some (NewPacketContext payload (some (env.marshal pid buf).1)))
    else
      .error (.unknownId pid)

/-- Embedding of the context-building loop of handleClientBatch: each
payload is decoded in order; an error aborts the whole batch, a nil
context is skipped, any other context is appended. -/
def buildCtxBatch {Pk : Type} (env : Env Pk) (opts : Opts) :
    List Bytes → Except DecodeErr (List (PacketContext Pk))
  | [] => .ok []
  | payload :: rest =>
    match decodeAndCreateContext env opts payload with
    | .error e => .error e
    | .ok none => buildCtxBatch env opts rest
    | .ok (some ctx) =>
      match buildCtxBatch env opts rest with
      | .error e => .error e
      | .ok ctxs => .ok (ctx :: ctxs)

/-- Embedding of the outbound arm of handleClientBatch for one context: a
cancelled context contributes nothing; a context with no decoded packet or
not marked modified contributes its raw bytes; otherwise the decoded
packet is re-encoded with the writer of the chosen protocol. -/
def ctxOut {Pk : Type} (env : Env Pk) (opts : Opts) (ctx : PacketContext Pk) : Option Bytes :=
  if ctx.canceled then
    none
  else
    match ctx.decoded with
    | none => some ctx.raw
    | some pk => if ctx.modified then some (env.encode opts.SyncProtocol pk) else some ctx.raw

/-- Payloads contributed by a list of contexts, in order. -/
def listOut {Pk : Type} (env : Env Pk) (opts : Opts) (ctxs : List (PacketContext Pk)) : List Bytes :=
  ctxs.filterMap (ctxOut env opts)

/-- Observable outcome of one successful client batch: the ordered context
slice passed to the single ProcessClient call, and the payload slice passed
to the single WriteBatch call. -/
structure BatchOutcome (Pk : Type) where
  procArg : List (PacketContext Pk)
  written : List Bytes
deriving DecidableEq

/-- Embedding of handleClientBatch: build the contexts (an error aborts
before ProcessClient and WriteBatch), hand the batch to the processor
(modelled as a function from the context slice to the mutated context
slice), then assemble the outbound payload batch. -/
def handleClientBatch {Pk : Type} (env : Env Pk) (opts : Opts)
    (proc : List (PacketContext Pk) → List (PacketContext Pk)) (payloads : List Bytes) :
    Except DecodeErr (BatchOutcome Pk) :=
  match buildCtxBatch env opts payloads with
  | .error e => .error e
  | .ok ctxBatch => .ok { procArg := ctxBatch, written := listOut env opts (proc ctxBatch) }

/-- Observable outcome of the decoded-packet arm of handleServer: the
packets fed to the Tracker and the packet written to the client. -/
structure ServerPacketOutcome (Pk : Type) where
  tracked : List Pk
  writtenPk : Option Pk
deriving DecidableEq

/-- Embedding of the `packet.Packet` arm of handleServer: build a fresh
context around the decoded packet, let the processor act on it, drop the
packet when cancelled; otherwise the Tracker receives the ConvertToLatest
image of the packet when SyncProtocol is set and the original packet
otherwise, and the original packet is written to the client. -/
def handleServerPacket {Pk : Type} (env : Env Pk) (opts : Opts)
    (procServer : PacketContext Pk → PacketContext Pk) (pk : Pk) : ServerPacketOutcome Pk :=
  let ctx := procServer (NewPacketContext [] (some pk))
  if ctx.Cancelled then
    { tracked := [], writtenPk := none }
  else
    { tracked := if opts.SyncProtocol then env.convertToLatest pk else [pk],
      writtenPk := some pk }

/-- Observable outcome of the read-error handling of handleServer: whether
the snapshotted server connection was closed, whether fallback ran,
whether the session was closed, and whether the loop continues. -/
structure ReadErrOutcome where
  closedServer : Bool
  fallbackInvoked : Bool
  sessionClosed : Bool
  loopContinues : Bool
deriving DecidableEq

/-- Embedding of the read-error branch of handleServer. Server connections
are identified by naturals: `snapshot` is the connection the read was
issued on, `current` the session server at the time of the check. A stale
snapshot is discarded and the loop continues; otherwise the snapshot is
closed and fallback runs, closing the session only when fallback fails. -/
def handleReadError (snapshot current : Nat) (fallbackOk : Bool) : ReadErrOutcome :=
  if snapshot ≠ current then
    { closedServer := false, fallbackInvoked := false,
      sessionClosed := false, loopContinues := true }
  else if fallbackOk then
    { closedServer := true, fallbackInvoked := true,
      sessionClosed := false, loopContinues := true }
  else
    { closedServer := true, fallbackInvoked := true,
      sessionClosed := true, loopContinues := false }

/-- Latency packet written by the heartbeat. -/
structure LatencyPacket where
  Latency : Int
  Timestamp : Int
deriving DecidableEq

/-- Observable outcome of one heartbeat tick: the packet handed to
WritePacket, whether logError ran, and whether the loop stops. -/
structure HeartbeatObs where
  sentLatency : Option LatencyPacket
  loggedError : Bool
  loopStops : Bool
deriving DecidableEq

/-- Embedding of one ticker arm of handleLatency: write a Latency packet
carrying twice the client half-RTT in milliseconds and the current Unix
millisecond time; a write failure is logged and the loop keeps running. -/
def handleLatencyTick (clientLatencyMs nowUnixMs : Int) (writeFails : Bool) : HeartbeatObs :=
  { sentLatency := some { Latency := clientLatencyMs * 2, Timestamp := nowUnixMs },
    loggedError := writeFails,
    loopStops := false }

/-! Concrete instantiations used to evaluate the model on closed inputs:
packets are naturals, the header is the first byte of a payload. -/

/-- Header parsing for the concrete environment: the first byte is the
packet id, the rest is the body. -/
def idHeader : Bytes → Option (Nat × Bytes)
  | [] => none
  | pid :: rest => some (pid, rest)

/-- Concrete environment with the client on the latest protocol: ids below
10 are in the pool, decoding consumes the whole body, upgrading a packet
adds 1000 to it, and re-encoding tags the packet with the chosen protocol. -/
def testEnv : Env Nat :=
  { readHeader := idHeader
    poolHas := fun pid => decide (pid < 10)
    marshal := fun pid _ => (pid, [])
    convertToLatest := fun pk => [pk + 1000]
    encode := fun sync pk => [if sync then 1 else 0, pk]
    clientProtoID := 100
    currentProtocol := 100 }

/-- Concrete environment with the client on an older protocol; conversion
of packet 0 yields the empty sequence. -/
def testEnvLegacy : Env Nat :=
  { testEnv with
    clientProtoID := 90
    convertToLatest := fun pk => if pk == 0 then [] else [pk + 1000] }

/-- Options with SyncProtocol set and no forced client decode. -/
def syncOpts : Opts :=
  { SyncProtocol := true, ClientDecode := [] }

/-- Options with SyncProtocol unset and no forced client decode. -/
def legacyOpts : Opts :=
  { SyncProtocol := false, ClientDecode := [] }

/-- Concrete batch of three payloads. -/
def payloads3 : List Bytes :=
  [[1], [2], [3]]

/-- Contexts handleClientBatch builds from payloads3 under syncOpts. -/
def ctxs3 : List (PacketContext Nat) :=
  [NewPacketContext [1] none, NewPacketContext [2] none, NewPacketContext [3] none]

/-- Processor that cancels the second context of a three-context batch. -/
def procCancelSecond : List (PacketContext Nat) → List (PacketContext Nat)
  | [a, b, c] => [a, b.Cancel, c]
  | l => l

/-- Outcome of the batch payloads3 under procCancelSecond. -/
def outB : BatchOutcome Nat :=
  { procArg := ctxs3, written := [[1], [3]] }

/-! Panic-aware refinement of the decode pipeline. The Go
decodeAndCreateContext wraps its body in a defer/recover that converts any
panic raised while decoding (the protocol reader panics on a malformed
body) or upgrading into an error return. The definitions above treat the
collaborators as total; the ones below make the panic explicit, so the
recovered-panic error path of the source is part of the model. -/

/-- Errors decodeAndCreateContext can return once its defer/recover is
modelled: the three explicit error returns plus the recovered panic
converted to an error. -/
inductive DecodeErrR where
  | badHeader : DecodeErrR
  | unknownId : Nat → DecodeErrR
  | extraBytes : Nat → DecodeErrR
  | panicked : Nat → DecodeErrR
deriving DecidableEq

/-- External collaborators with panics explicit: `marshal` and
`convertToLatest` either return normally (.ok) or panic (.error carrying an
abstract panic value); the other fields are as in `Env`. -/
structure EnvR (Pk : Type) where
  readHeader : Bytes → Option (Nat × Bytes)
  poolHas : Nat → Bool
  marshal : Nat → Bytes → Except Nat (Pk × Bytes)
  convertToLatest : Pk → Except Nat (List Pk)
  encode : Bool → Pk → Bytes
  clientProtoID : Nat
  currentProtocol : Nat

/-- Embedding of decodeAndCreateContext including its defer/recover: a
panic raised by Marshal or ConvertToLatest is recovered and surfaces as a
panicked error; everything else is as in `decodeAndCreateContext`. -/
def decodeAndCreateContextR {Pk : Type} (env : EnvR Pk) (opts : Opts) (payload : Bytes) :
    Except DecodeErrR (Option (PacketContext Pk)) :=
  match env.readHeader payload with
  | none => .error .badHeader
  | some (pid, buf) =>
    if env.poolHas pid then
      if !(opts.ClientDecode.contains pid) &&
          (opts.SyncProtocol || (env.clientProtoID == env.currentProtocol)) then
        .ok (some (NewPacketContext payload none))
      else
        match env.marshal pid buf with
        | .error p => .error (.panicked p)
        | .ok (decodedPk, rest) =>
          if 0 < rest.length then
            .error (.extraBytes rest.length)
          else if !opts.SyncProtocol && !(env.clientProtoID == env.currentProtocol) then
            match env.convertToLatest decodedPk with
            | .error p => .error (.panicked p)
            | .ok [] => .ok none
            | .ok (upgraded :: _) => .ok (some (NewPacketContext payload (some upgraded)))
          else
            .ok (some (NewPacketContext payload (some decodedPk)))
    else
      .error (.unknownId pid)

/-- Context-building loop of handleClientBatch over the panic-aware
decoder. -/
def buildCtxBatchR {Pk : Type} (env : EnvR Pk) (opts : Opts) :
    List Bytes → Except DecodeErrR (List (PacketContext Pk))
  | [] => .ok []
  | payload :: rest =>
    match decodeAndCreateContextR env opts payload with
    | .error e => .error e
    | .ok none => buildCtxBatchR env opts rest
    | .ok (some ctx) =>
      match buildCtxBatchR env opts rest with
      | .error e => .error e
      | .ok ctxs => .ok (ctx :: ctxs)

/-- Outbound arm of handleClientBatch for one context, over the panic-aware
environment (same logic as ctxOut). -/
def ctxOutR {Pk : Type} (env : EnvR Pk) (opts : Opts) (ctx : PacketContext Pk) : Option Bytes :=
  if ctx.canceled then
    none
  else
    match ctx.decoded with
    | none => some ctx.raw
    | some pk => if ctx.modified then some (env.encode opts.SyncProtocol pk) else some ctx.raw

/-- handleClientBatch over the panic-aware decoder. -/
def handleClientBatchR {Pk : Type} (env : EnvR Pk) (opts : Opts)
    (proc : List (PacketContext Pk) → List (PacketContext Pk)) (payloads : List Bytes) :
    Except DecodeErrR (BatchOutcome Pk) :=
  match buildCtxBatchR env opts payloads with
  | .error e => .error e
  | .ok ctxBatch =>
    .ok { procArg := ctxBatch, written := (proc ctxBatch).filterMap (ctxOutR env opts) }

/-- Concrete panic-aware environment whose Marshal panics (with panic value
7) on every body, while headers parse and ids below 10 are in the pool. -/
def panicEnvR : EnvR Nat :=
  { readHeader := idHeader
    poolHas := fun pid => decide (pid < 10)
    marshal := fun _ _ => .error 7
    convertToLatest := fun pk => .ok [pk + 1000]
    encode := fun sync pk => [if sync then 1 else 0, pk]
    clientProtoID := 100
    currentProtocol := 100 }

/-- Options forcing id 5 through the decoder via ClientDecode. -/
def panicOpts : Opts :=
  { SyncProtocol := true, ClientDecode := [5] }

/-! Helper lemmas shared by the claim theorems. -/

theorem applyOps_cons {Pk : Type} (c : PacketContext Pk) (op : PCOp) (ops : List PCOp) :
    c.applyOps (op :: ops) = (c.applyOp op).applyOps ops :=
  rfl

theorem applyOp_keeps_canceled {Pk : Type} (c : PacketContext Pk) (op : PCOp)
    (h : c.canceled = true) : (c.applyOp op).canceled = true := by
  cases op <;>
    simp [PacketContext.applyOp, PacketContext.Cancel, PacketContext.SetModified, h]

theorem applyOp_keeps_modified {Pk : Type} (c : PacketContext Pk) (op : PCOp)
    (h : c.modified = true) : (c.applyOp op).modified = true := by
  cases op <;>
    simp [PacketContext.applyOp, PacketContext.Cancel, PacketContext.SetModified, h]

theorem applyOps_canceled_mono {Pk : Type} :
    ∀ (ops : List PCOp) (c : PacketContext Pk),
      c.canceled = true → (c.applyOps ops).canceled = true
  | [], _, h => h
  | op :: ops, c, h => by
    rw [applyOps_cons]
    exact applyOps_canceled_mono ops _ (applyOp_keeps_canceled c op h)

theorem applyOps_modified_mono {Pk : Type} :
    ∀ (ops : List PCOp) (c : PacketContext Pk),
      c.modified = true → (c.applyOps ops).modified = true
  | [], _, h => h
  | op :: ops, c, h => by
    rw [applyOps_cons]
    exact applyOps_modified_mono ops _ (applyOp_keeps_modified c op h)

theorem decode_ok_some {Pk : Type} (env : Env Pk) (opts : Opts) (payload : Bytes)
    (ctx : PacketContext Pk)
    (h : decodeAndCreateContext env opts payload = .ok (some ctx)) :
    ctx.raw = payload ∧ ctx.canceled = false ∧ ctx.modified = false := by
  unfold decodeAndCreateContext at h
  repeat' split at h
  all_goals try exact Except.noConfusion h
  all_goals injection h with h1
  all_goals try exact Option.noConfusion h1
  all_goals injection h1 with h2
  all_goals subst h2
  all_goals exact ⟨rfl, rfl, rfl⟩

theorem buildCtxBatch_cons_error {Pk : Type} (env : Env Pk) (opts : Opts)
    (payload : Bytes) (rest : List Bytes) (e : DecodeErr)
    (hdec : decodeAndCreateContext env opts payload = .error e) :
    buildCtxBatch env opts (payload :: rest) = .error e := by
  simp only [buildCtxBatch]
  rw [hdec]

theorem buildCtxBatch_cons_none {Pk : Type} (env : Env Pk) (opts : Opts)
    (payload : Bytes) (rest : List Bytes)
    (hdec : decodeAndCreateContext env opts payload = .ok none) :
    buildCtxBatch env opts (payload :: rest) = buildCtxBatch env opts rest := by
  simp only [buildCtxBatch]
  rw [hdec]

theorem buildCtxBatch_cons_some {Pk : Type} (env : Env Pk) (opts : Opts)
    (payload : Bytes) (rest : List Bytes) (ctx : PacketContext Pk)
    (hdec : decodeAndCreateContext env opts payload = .ok (some ctx)) :
    buildCtxBatch env opts (payload :: rest) =
      match buildCtxBatch env opts rest with
      | .error e => .error e
      | .ok ctxs => .ok (ctx :: ctxs) := by
  simp only [buildCtxBatch]
  rw [hdec]

theorem buildCtxBatch_length_le {Pk : Type} (env : Env Pk) (opts : Opts) :
    ∀ (payloads : List Bytes) (ctxs : List (PacketContext Pk)),
      buildCtxBatch env opts payloads = .ok ctxs → ctxs.length ≤ payloads.length
  | [], ctxs, h => by
    obtain rfl : ([] : List (PacketContext Pk)) = ctxs := by
      simpa [buildCtxBatch] using h
    simp
  | payload :: rest, ctxs, h => by
    cases hdec : decodeAndCreateContext env opts payload with
    | error e =>
      rw [buildCtxBatch_cons_error env opts payload rest e hdec] at h
      exact absurd h (by simp)
    | ok octx =>
      cases octx with
      | none =>
        rw [buildCtxBatch_cons_none env opts payload rest hdec] at h
        exact Nat.le_succ_of_le (buildCtxBatch_length_le env opts rest ctxs h)
      | some ctx =>
        rw [buildCtxBatch_cons_some env opts payload rest ctx hdec] at h
        cases hrest : buildCtxBatch env opts rest with
        | error e => rw [hrest] at h; exact absurd h (by simp)
        | ok ctxs0 =>
          rw [hrest] at h
          obtain rfl : ctx :: ctxs0 = ctxs := by simpa using h
          simpa using Nat.succ_le_succ (buildCtxBatch_length_le env opts rest ctxs0 hrest)

theorem buildCtxBatch_map_raw {Pk : Type} (env : Env Pk) (opts : Opts) :
    ∀ (payloads : List Bytes) (ctxs : List (PacketContext Pk)),
      buildCtxBatch env opts payloads = .ok ctxs → ctxs.length = payloads.length →
        ctxs.map (fun c => c.raw) = payloads
  | [], ctxs, h, _ => by
    obtain rfl : ([] : List (PacketContext Pk)) = ctxs := by
      simpa [buildCtxBatch] using h
    simp
  | payload :: rest, ctxs, h, hlen => by
    cases hdec : decodeAndCreateContext env opts payload with
    | error e =>
      rw [buildCtxBatch_cons_error env opts payload rest e hdec] at h
      exact absurd h (by simp)
    | ok octx =>
      cases octx with
      | none =>
        rw [buildCtxBatch_cons_none env opts payload rest hdec] at h
        have hle := buildCtxBatch_length_le env opts rest ctxs h
        rw [hlen] at hle
        exact absurd hle (by simp)
      | some ctx =>
        rw [buildCtxBatch_cons_some env opts payload rest ctx hdec] at h
        cases hrest : buildCtxBatch env opts rest with
        | error e => rw [hrest] at h; exact absurd h (by simp)
        | ok ctxs0 =>
          rw [hrest] at h
          obtain rfl : ctx :: ctxs0 = ctxs := by simpa using h
          have hraw := (decode_ok_some env opts payload ctx hdec).1
          simp only [List.map_cons, hraw]
          rw [buildCtxBatch_map_raw env opts rest ctxs0 hrest (by simpa using hlen)]

theorem ctxOut_plain {Pk : Type} (env : Env Pk) (opts : Opts) (c : PacketContext Pk)
    (hc : c.canceled = false) (hm : c.modified = false) :
    ctxOut env opts c = some c.raw := by
  unfold ctxOut
  rw [hc]
  cases c.decoded <;> simp [hm]

theorem ctxOut_canceled_none {Pk : Type} (env : Env Pk) (opts : Opts) (c : PacketContext Pk)
    (hc : c.canceled = true) : ctxOut env opts c = none := by
  unfold ctxOut
  simp [hc]

theorem listOut_map_raw {Pk : Type} (env : Env Pk) (opts : Opts) :
    ∀ ctxs : List (PacketContext Pk),
      (∀ c ∈ ctxs, c.canceled = false ∧ c.modified = false) →
        listOut env opts ctxs = ctxs.map (fun c => c.raw)
  | [], _ => rfl
  | c :: ctxs, h => by
    have hc := h c (by simp)
    simp only [listOut, List.filterMap_cons, ctxOut_plain env opts c hc.1 hc.2, List.map_cons]
    rw [← listOut, listOut_map_raw env opts ctxs (fun x hx => h x (by simp [hx]))]

theorem listOut_filter_canceled {Pk : Type} (env : Env Pk) (opts : Opts) :
    ∀ ctxs : List (PacketContext Pk),
      listOut env opts ctxs = listOut env opts (ctxs.filter (fun c => !c.canceled))
  | [] => rfl
  | c :: ctxs => by
    by_cases hc : c.canceled = true
    · simp only [listOut, List.filterMap_cons, ctxOut_canceled_none env opts c hc,
        List.filter_cons, hc]
      simpa [listOut] using listOut_filter_canceled env opts ctxs
    · have hc' : c.canceled = false := by simpa using hc
      simp only [listOut, List.filterMap_cons, List.filter_cons, hc']
      cases hout : ctxOut env opts c <;>
        simpa [listOut, hout] using listOut_filter_canceled env opts ctxs

theorem decode_eq_of_header {Pk : Type} (env : Env Pk) (opts : Opts) (payload : Bytes)
    (pid : Nat) (buf : Bytes) (hh : env.readHeader payload = some (pid, buf)) :
    decodeAndCreateContext env opts payload =
      if env.poolHas pid then
        if !(opts.ClientDecode.contains pid) &&
            (opts.SyncProtocol || (env.clientProtoID == env.currentProtocol)) then
          .ok (some (NewPacketContext payload none))
        else
          if 0 < (env.marshal pid buf).2.length then
            .error (.extraBytes (env.marshal pid buf).2.length)
          else if !opts.SyncProtocol && !(env.clientProtoID == env.currentProtocol) then
            match env.convertToLatest (env.marshal pid buf).1 with
            | [] => .ok none
            | upgraded :: _ => .ok (some (NewPacketContext payload (some upgraded)))
          else
            .ok (some (NewPacketContext payload (some (env.marshal pid buf).1)))
      else
        .error (.unknownId pid) := by
  unfold decodeAndCreateContext
  rw [hh]

theorem passRaw_iff_not_decodeCond {Pk : Type} (env : Env Pk) (opts : Opts) (pid : Nat) :
    (!(opts.ClientDecode.contains pid) &&
        (opts.SyncProtocol || (env.clientProtoID == env.currentProtocol))) = true ↔
      ¬ (pid ∈ opts.ClientDecode ∨
          (opts.SyncProtocol = false ∧ env.clientProtoID ≠ env.currentProtocol)) := by
  have hmem : opts.ClientDecode.contains pid = true ↔ pid ∈ opts.ClientDecode :=
    List.elem_iff
  cases hc : opts.ClientDecode.contains pid <;>
    cases hs : opts.SyncProtocol <;>
      cases hb : env.clientProtoID == env.currentProtocol <;>
        simp_all [beq_iff_eq]

theorem passRaw_eq_false (cd : List Nat) (pid a b : Nat) (sync : Bool)
    (h : (cd.contains pid || (!sync && !(a == b))) = true) :
    (!(cd.contains pid) && (sync || (a == b))) = false := by
  cases hc : cd.contains pid <;> cases hs : sync <;> cases hb : a == b <;> simp_all

theorem passRaw_false_of_legacy (cd : List Nat) (pid a b : Nat) (sync : Bool)
    (h : (!sync && !(a == b)) = true) :
    (!(cd.contains pid) && (sync || (a == b))) = false := by
  cases hc : cd.contains pid <;> cases hs : sync <;> cases hb : a == b <;> simp_all

theorem bool_ne_true {b : Bool} (h : b = false) : ¬ (b = true) := by
  simp [h]

/-! Claim theorems. -/

/-- C1: for a client batch whose every payload yields a context and whose
processor neither cancels nor modifies any context (and leaves the raw
payloads untouched), handleClientBatch calls ProcessClient exactly once
with the ordered context slice built from the batch and WriteBatch receives
exactly the original payloads in order. -/
theorem clientBatchOrderPreserved {Pk : Type} (env : Env Pk) (opts : Opts)
    (proc : List (PacketContext Pk) → List (PacketContext Pk)) (payloads : List Bytes)
    (ctxs : List (PacketContext Pk))
    (hbuild : buildCtxBatch env opts payloads = .ok ctxs)
    (hlen : ctxs.length = payloads.length)
    (hflags : ∀ c ∈ proc ctxs, c.canceled = false ∧ c.modified = false)
    (hraw : (proc ctxs).map (fun c => c.raw) = ctxs.map (fun c => c.raw)) :
    handleClientBatch env opts proc payloads = .ok { procArg := ctxs, written := payloads } := by
  unfold handleClientBatch
  rw [hbuild]
  show (Except.ok { procArg := ctxs, written := listOut env opts (proc ctxs) } :
      Except DecodeErr (BatchOutcome Pk)) =
    Except.ok { procArg := ctxs, written := payloads }
  rw [listOut_map_raw env opts (proc ctxs) hflags, hraw,
    buildCtxBatch_map_raw env opts payloads ctxs hbuild hlen]

/-- Witness for C1: scenario A, three pass-through payloads under an
identity processor. -/
theorem clientBatchOrderPreserved_witness :
    handleClientBatch testEnv syncOpts id payloads3 =
      .ok { procArg := ctxs3, written := payloads3 } :=
  clientBatchOrderPreserved testEnv syncOpts id payloads3 ctxs3 rfl rfl (by decide) rfl

/-- C2: in a successful batch, the payload slice passed to WriteBatch is
the outbound image of the processed contexts with every cancelled context
removed (the rest compacted in their original relative order), and a
cancelled context contributes no bytes. -/
theorem cancelledDropCompaction {Pk : Type} (env : Env Pk) (opts : Opts)
    (proc : List (PacketContext Pk) → List (PacketContext Pk)) (payloads : List Bytes)
    (out : BatchOutcome Pk)
    (h : handleClientBatch env opts proc payloads = .ok out) :
    out.written =
      listOut env opts ((proc out.procArg).filter (fun c => !c.Cancelled)) ∧
    (∀ c : PacketContext Pk, c.Cancelled = true → ctxOut env opts c = none) := by
  constructor
  · unfold handleClientBatch at h
    cases hb : buildCtxBatch env opts payloads with
    | error e => rw [hb] at h; exact absurd h (by simp)
    | ok ctxs =>
      rw [hb] at h
      obtain rfl : ({ procArg := ctxs, written := listOut env opts (proc ctxs) }
          : BatchOutcome Pk) = out := by simpa using h
      exact listOut_filter_canceled env opts (proc ctxs)
  · exact fun c hc => ctxOut_canceled_none env opts c hc

/-- Witness for C2: scenario B, the second of three contexts cancelled,
WriteBatch receives the first and third payloads. -/
theorem cancelledDropCompaction_witness :
    outB.written =
      listOut testEnv syncOpts
        ((procCancelSecond outB.procArg).filter (fun c => !c.Cancelled)) ∧
    (∀ c : PacketContext Nat, c.Cancelled = true → ctxOut testEnv syncOpts c = none) :=
  cancelledDropCompaction testEnv syncOpts procCancelSecond payloads3 outB rfl

/-- C4 evidence: with SyncProtocol unset and the client on an older
protocol, a payload that decodes and upgrades cleanly but is not marked
modified by the processor is forwarded as the original raw client bytes,
not as a re-encoding of the decoded packet. -/
theorem legacyUnmodifiedRawPassThrough :
    handleClientBatch testEnvLegacy legacyOpts id [[3, 7]] =
      .ok { procArg := [NewPacketContext [3, 7] (some 1003)], written := [[3, 7]] } ∧
    testEnvLegacy.encode legacyOpts.SyncProtocol 1003 ≠ [3, 7] :=
  ⟨rfl, by decide⟩

/-- C10: a freshly constructed Context has Cancelled false, and a freshly
constructed PacketContext has both Cancelled and Modified false; Cancel and
SetModified only set their flag to true, and under any sequence of the
exported flag-writing operations a flag that is true stays true. -/
theorem contextFlagsFreshAndMonotone :
    (NewContext.Cancelled = false) ∧
    (∀ c : Context, c.Cancel.Cancelled = true) ∧
    (∀ (Pk : Type) (raw : Bytes) (d : Option Pk),
      (NewPacketContext raw d).Cancelled = false ∧ (NewPacketContext raw d).Modified = false) ∧
    (∀ (Pk : Type) (c : PacketContext Pk) (ops : List PCOp),
      (c.Cancelled = true → (c.applyOps ops).Cancelled = true) ∧
      (c.Modified = true → (c.applyOps ops).Modified = true)) :=
  ⟨rfl, fun _ => rfl, fun _ _ _ => ⟨rfl, rfl⟩,
    fun _ c ops =>
      ⟨fun h => applyOps_canceled_mono ops c h, fun h => applyOps_modified_mono ops c h⟩⟩

/-- C9: on every heartbeat tick the Latency packet written to the server
carries twice the client latency in milliseconds and the current Unix
millisecond timestamp; a write error is logged and the loop continues. -/
theorem latencyHeartbeatTick :
    (∀ (clientLatencyMs nowUnixMs : Int) (writeFails : Bool),
      (handleLatencyTick clientLatencyMs nowUnixMs writeFails).sentLatency =
        some { Latency := clientLatencyMs * 2, Timestamp := nowUnixMs }) ∧
    (∀ clientLatencyMs nowUnixMs : Int,
      (handleLatencyTick clientLatencyMs nowUnixMs true).loggedError = true ∧
      (handleLatencyTick clientLatencyMs nowUnixMs true).loopStops = false) :=
  ⟨fun _ _ _ => rfl, fun _ _ => ⟨rfl, rfl⟩⟩

/-- C8: when a read error is observed against a connection that is no longer
the current server, the error is discarded (nothing is closed, no fallback)
and the loop continues; fallback runs only when the erroring connection is
still the current server. -/
theorem staleReadSilence :
    (∀ (snapshot current : Nat) (fallbackOk : Bool), snapshot ≠ current →
      handleReadError snapshot current fallbackOk =
        { closedServer := false, fallbackInvoked := false,
          sessionClosed := false, loopContinues := true }) ∧
    (∀ (snapshot current : Nat) (fallbackOk : Bool),
      (handleReadError snapshot current fallbackOk).fallbackInvoked = true →
        snapshot = current) := by
  constructor
  · intro s c f h
    simp [handleReadError, h]
  · intro s c f h
    by_cases hc : s = c
    · exact hc
    · simp [handleReadError, hc] at h

/-- C7: in the server-to-client relay, for a decoded protocol packet the
processor does not cancel, the Tracker receives the ConvertToLatest image
of the packet when SyncProtocol is set and the original packet otherwise,
and the packet written to the client is the original packet. -/
theorem serverPacketRelay {Pk : Type} (env : Env Pk) (opts : Opts)
    (procServer : PacketContext Pk → PacketContext Pk) (pk : Pk)
    (h : (procServer (NewPacketContext [] (some pk))).Cancelled = false) :
    handleServerPacket env opts procServer pk =
      { tracked := if opts.SyncProtocol then env.convertToLatest pk else [pk],
        writtenPk := some pk } := by
  unfold handleServerPacket
  simp only [h, Bool.false_eq_true, if_false]

/-- Witness for C7 at a concrete environment and packet. -/
theorem serverPacketRelay_witness :
    handleServerPacket testEnv syncOpts id 5 =
      { tracked := if syncOpts.SyncProtocol then testEnv.convertToLatest 5 else [5],
        writtenPk := some 5 } :=
  serverPacketRelay testEnv syncOpts id 5 rfl

/-- C3: for a payload with a parseable header and a known id,
decodeAndCreateContext decodes exactly when the id is in ClientDecode or
SyncProtocol is unset and the client protocol differs from the latest; in
every other case the returned context carries the exact input payload as
raw and a nil decoded packet. -/
theorem clientDecodeRule {Pk : Type} (env : Env Pk) (opts : Opts) (payload : Bytes)
    (pid : Nat) (buf : Bytes)
    (hh : env.readHeader payload = some (pid, buf))
    (hp : env.poolHas pid = true) :
    (¬ (pid ∈ opts.ClientDecode ∨
        (opts.SyncProtocol = false ∧ env.clientProtoID ≠ env.currentProtocol)) →
      decodeAndCreateContext env opts payload = .ok (some (NewPacketContext payload none))) ∧
    ((pid ∈ opts.ClientDecode ∨
        (opts.SyncProtocol = false ∧ env.clientProtoID ≠ env.currentProtocol)) →
      ∀ ctx : PacketContext Pk,
        decodeAndCreateContext env opts payload = .ok (some ctx) → ctx.decoded ≠ none) := by
  rw [decode_eq_of_header env opts payload pid buf hh, if_pos hp]
  constructor
  · intro hno
    rw [if_pos ((passRaw_iff_not_decodeCond env opts pid).mpr hno)]
  · intro hyes ctx hctx
    have hnb : ¬ ((!(opts.ClientDecode.contains pid) &&
        (opts.SyncProtocol || (env.clientProtoID == env.currentProtocol))) = true) :=
      fun hb => (passRaw_iff_not_decodeCond env opts pid).mp hb hyes
    rw [if_neg hnb] at hctx
    repeat' split at hctx
    all_goals try exact Except.noConfusion hctx
    all_goals injection hctx with h1
    all_goals try exact Option.noConfusion h1
    all_goals injection h1 with h2
    all_goals subst h2
    all_goals simp [NewPacketContext]

/-- Witness for C3: under SyncProtocol with an id outside ClientDecode, the
payload passes through raw with a nil decoded packet. -/
theorem clientDecodeRule_witness :
    decodeAndCreateContext testEnv syncOpts [2, 9] =
      .ok (some (NewPacketContext [2, 9] none)) := by
  have h := clientDecodeRule testEnv syncOpts [2, 9] 2 [9] rfl rfl
  exact h.1 (by decide)

/-- C5: with SyncProtocol unset and the client on an older protocol, a
payload that decodes cleanly is skipped (nil context, no error, nothing
appended to the batch) when ConvertToLatest yields the empty sequence, and
otherwise yields a context whose decoded packet is exactly the first
upgraded packet, the rest being discarded. -/
theorem legacyUpgradeFirst {Pk : Type} (env : Env Pk) (opts : Opts) (payload : Bytes)
    (pid : Nat) (buf : Bytes) (pk : Pk)
    (hh : env.readHeader payload = some (pid, buf))
    (hp : env.poolHas pid = true)
    (hsync : opts.SyncProtocol = false)
    (hver : env.clientProtoID ≠ env.currentProtocol)
    (hm : env.marshal pid buf = (pk, [])) :
    (env.convertToLatest pk = [] →
      decodeAndCreateContext env opts payload = .ok none ∧
      ∀ rest : List Bytes,
        buildCtxBatch env opts (payload :: rest) = buildCtxBatch env opts rest) ∧
    (∀ (u : Pk) (us : List Pk), env.convertToLatest pk = u :: us →
      decodeAndCreateContext env opts payload =
        .ok (some (NewPacketContext payload (some u)))) := by
  have hbeq : (env.clientProtoID == env.currentProtocol) = false := by
    simpa using hver
  have hdec : decodeAndCreateContext env opts payload =
      match env.convertToLatest pk with
      | [] => .ok none
      | upgraded :: _ => .ok (some (NewPacketContext payload (some upgraded))) := by
    rw [decode_eq_of_header env opts payload pid buf hh, if_pos hp, hm]
    simp [hsync, hbeq]
  constructor
  · intro hconv
    constructor
    · rw [hdec, hconv]
    · intro rest
      exact buildCtxBatch_cons_none env opts payload rest (by rw [hdec, hconv])
  · intro u us hconv
    rw [hdec, hconv]

/-- Witness for C5: a legacy-client payload whose upgrade yields the empty
sequence is skipped with no error. -/
theorem legacyUpgradeFirst_witness :
    decodeAndCreateContext testEnvLegacy legacyOpts [0] = .ok none := by
  have h := legacyUpgradeFirst testEnvLegacy legacyOpts [0] 0 [] 0 rfl rfl rfl
    (by decide) rfl
  exact (h.1 rfl).1

/-! Lemmas about the panic-aware decode pipeline. -/

theorem decodeR_eq_of_header_none {Pk : Type} (env : EnvR Pk) (opts : Opts) (payload : Bytes)
    (hh : env.readHeader payload = none) :
    decodeAndCreateContextR env opts payload = .error .badHeader := by
  unfold decodeAndCreateContextR
  rw [hh]

theorem decodeR_eq_of_header {Pk : Type} (env : EnvR Pk) (opts : Opts) (payload : Bytes)
    (pid : Nat) (buf : Bytes) (hh : env.readHeader payload = some (pid, buf)) :
    decodeAndCreateContextR env opts payload =
      if env.poolHas pid then
        if !(opts.ClientDecode.contains pid) &&
            (opts.SyncProtocol || (env.clientProtoID == env.currentProtocol)) then
          .ok (some (NewPacketContext payload none))
        else
          match env.marshal pid buf with
          | .error p => .error (.panicked p)
          | .ok (decodedPk, rest) =>
            if 0 < rest.length then
              .error (.extraBytes rest.length)
            else if !opts.SyncProtocol && !(env.clientProtoID == env.currentProtocol) then
              match env.convertToLatest decodedPk with
              | .error p => .error (.panicked p)
              | .ok [] => .ok none
              | .ok (upgraded :: _) => .ok (some (NewPacketContext payload (some upgraded)))
            else
              .ok (some (NewPacketContext payload (some decodedPk)))
      else
        .error (.unknownId pid) := by
  unfold decodeAndCreateContextR
  rw [hh]

theorem decodeR_unknown {Pk : Type} (env : EnvR Pk) (opts : Opts) (payload : Bytes)
    (pid : Nat) (buf : Bytes)
    (hh : env.readHeader payload = some (pid, buf)) (hpool : env.poolHas pid = false) :
    decodeAndCreateContextR env opts payload = .error (.unknownId pid) := by
  rw [decodeR_eq_of_header env opts payload pid buf hh, if_neg (bool_ne_true hpool)]

theorem decodeR_passRaw {Pk : Type} (env : EnvR Pk) (opts : Opts) (payload : Bytes)
    (pid : Nat) (buf : Bytes)
    (hh : env.readHeader payload = some (pid, buf)) (hpool : env.poolHas pid = true)
    (hpass : (!(opts.ClientDecode.contains pid) &&
        (opts.SyncProtocol || (env.clientProtoID == env.currentProtocol))) = true) :
    decodeAndCreateContextR env opts payload = .ok (some (NewPacketContext payload none)) := by
  rw [decodeR_eq_of_header env opts payload pid buf hh, if_pos hpool, if_pos hpass]

theorem decodeR_marshal_panic {Pk : Type} (env : EnvR Pk) (opts : Opts) (payload : Bytes)
    (pid : Nat) (buf : Bytes) (p : Nat)
    (hh : env.readHeader payload = some (pid, buf)) (hpool : env.poolHas pid = true)
    (hpass : (!(opts.ClientDecode.contains pid) &&
        (opts.SyncProtocol || (env.clientProtoID == env.currentProtocol))) = false)
    (hm : env.marshal pid buf = .error p) :
    decodeAndCreateContextR env opts payload = .error (.panicked p) := by
  rw [decodeR_eq_of_header env opts payload pid buf hh, if_pos hpool,
    if_neg (bool_ne_true hpass), hm]

theorem decodeR_marshal_ok {Pk : Type} (env : EnvR Pk) (opts : Opts) (payload : Bytes)
    (pid : Nat) (buf : Bytes) (pk : Pk) (rest : Bytes)
    (hh : env.readHeader payload = some (pid, buf)) (hpool : env.poolHas pid = true)
    (hpass : (!(opts.ClientDecode.contains pid) &&
        (opts.SyncProtocol || (env.clientProtoID == env.currentProtocol))) = false)
    (hm : env.marshal pid buf = .ok (pk, rest)) :
    decodeAndCreateContextR env opts payload =
      if 0 < rest.length then
        .error (.extraBytes rest.length)
      else if !opts.SyncProtocol && !(env.clientProtoID == env.currentProtocol) then
        match env.convertToLatest pk with
        | .error p => .error (.panicked p)
        | .ok [] => .ok none
        | .ok (upgraded :: _) => .ok (some (NewPacketContext payload (some upgraded)))
      else
        .ok (some (NewPacketContext payload (some pk))) := by
  rw [decodeR_eq_of_header env opts payload pid buf hh, if_pos hpool,
    if_neg (bool_ne_true hpass), hm]

theorem decodeR_extra {Pk : Type} (env : EnvR Pk) (opts : Opts) (payload : Bytes)
    (pid : Nat) (buf : Bytes) (pk : Pk) (rest : Bytes)
    (hh : env.readHeader payload = some (pid, buf)) (hpool : env.poolHas pid = true)
    (hpass : (!(opts.ClientDecode.contains pid) &&
        (opts.SyncProtocol || (env.clientProtoID == env.currentProtocol))) = false)
    (hm : env.marshal pid buf = .ok (pk, rest)) (hlen : 0 < rest.length) :
    decodeAndCreateContextR env opts payload = .error (.extraBytes rest.length) := by
  rw [decodeR_marshal_ok env opts payload pid buf pk rest hh hpool hpass hm, if_pos hlen]

theorem decodeR_convert_panic {Pk : Type} (env : EnvR Pk) (opts : Opts) (payload : Bytes)
    (pid : Nat) (buf : Bytes) (pk : Pk) (p : Nat)
    (hh : env.readHeader payload = some (pid, buf)) (hpool : env.poolHas pid = true)
    (hleg : (!opts.SyncProtocol && !(env.clientProtoID == env.currentProtocol)) = true)
    (hm : env.marshal pid buf = .ok (pk, []))
    (hconv : env.convertToLatest pk = .error p) :
    decodeAndCreateContextR env opts payload = .error (.panicked p) := by
  rw [decodeR_marshal_ok env opts payload pid buf pk [] hh hpool
    (passRaw_false_of_legacy opts.ClientDecode pid env.clientProtoID env.currentProtocol
      opts.SyncProtocol hleg) hm]
  rw [if_neg (by simp), if_pos hleg, hconv]

theorem decodeR_convert_nil {Pk : Type} (env : EnvR Pk) (opts : Opts) (payload : Bytes)
    (pid : Nat) (buf : Bytes) (pk : Pk)
    (hh : env.readHeader payload = some (pid, buf)) (hpool : env.poolHas pid = true)
    (hleg : (!opts.SyncProtocol && !(env.clientProtoID == env.currentProtocol)) = true)
    (hm : env.marshal pid buf = .ok (pk, []))
    (hconv : env.convertToLatest pk = .ok []) :
    decodeAndCreateContextR env opts payload = .ok none := by
  rw [decodeR_marshal_ok env opts payload pid buf pk [] hh hpool
    (passRaw_false_of_legacy opts.ClientDecode pid env.clientProtoID env.currentProtocol
      opts.SyncProtocol hleg) hm]
  rw [if_neg (by simp), if_pos hleg, hconv]

theorem decodeR_convert_cons {Pk : Type} (env : EnvR Pk) (opts : Opts) (payload : Bytes)
    (pid : Nat) (buf : Bytes) (pk u : Pk) (us : List Pk)
    (hh : env.readHeader payload = some (pid, buf)) (hpool : env.poolHas pid = true)
    (hleg : (!opts.SyncProtocol && !(env.clientProtoID == env.currentProtocol)) = true)
    (hm : env.marshal pid buf = .ok (pk, []))
    (hconv : env.convertToLatest pk = .ok (u :: us)) :
    decodeAndCreateContextR env opts payload =
      .ok (some (NewPacketContext payload (some u))) := by
  rw [decodeR_marshal_ok env opts payload pid buf pk [] hh hpool
    (passRaw_false_of_legacy opts.ClientDecode pid env.clientProtoID env.currentProtocol
      opts.SyncProtocol hleg) hm]
  rw [if_neg (by simp), if_pos hleg, hconv]

theorem decodeR_sync_ok {Pk : Type} (env : EnvR Pk) (opts : Opts) (payload : Bytes)
    (pid : Nat) (buf : Bytes) (pk : Pk)
    (hh : env.readHeader payload = some (pid, buf)) (hpool : env.poolHas pid = true)
    (hpass : (!(opts.ClientDecode.contains pid) &&
        (opts.SyncProtocol || (env.clientProtoID == env.currentProtocol))) = false)
    (hleg : (!opts.SyncProtocol && !(env.clientProtoID == env.currentProtocol)) = false)
    (hm : env.marshal pid buf = .ok (pk, [])) :
    decodeAndCreateContextR env opts payload =
      .ok (some (NewPacketContext payload (some pk))) := by
  rw [decodeR_marshal_ok env opts payload pid buf pk [] hh hpool hpass hm]
  rw [if_neg (by simp), if_neg (bool_ne_true hleg)]

theorem buildCtxBatchR_cons_error {Pk : Type} (env : EnvR Pk) (opts : Opts)
    (payload : Bytes) (rest : List Bytes) (e : DecodeErrR)
    (hdec : decodeAndCreateContextR env opts payload = .error e) :
    buildCtxBatchR env opts (payload :: rest) = .error e := by
  simp only [buildCtxBatchR]
  rw [hdec]

theorem buildCtxBatchR_cons_none {Pk : Type} (env : EnvR Pk) (opts : Opts)
    (payload : Bytes) (rest : List Bytes)
    (hdec : decodeAndCreateContextR env opts payload = .ok none) :
    buildCtxBatchR env opts (payload :: rest) = buildCtxBatchR env opts rest := by
  simp only [buildCtxBatchR]
  rw [hdec]

theorem buildCtxBatchR_cons_some {Pk : Type} (env : EnvR Pk) (opts : Opts)
    (payload : Bytes) (rest : List Bytes) (ctx : PacketContext Pk)
    (hdec : decodeAndCreateContextR env opts payload = .ok (some ctx)) :
    buildCtxBatchR env opts (payload :: rest) =
      match buildCtxBatchR env opts rest with
      | .error e => .error e
      | .ok ctxs => .ok (ctx :: ctxs) := by
  simp only [buildCtxBatchR]
  rw [hdec]

theorem buildCtxBatchR_error_of_mem {Pk : Type} (env : EnvR Pk) (opts : Opts)
    (payload : Bytes) (e : DecodeErrR)
    (hdec : decodeAndCreateContextR env opts payload = .error e) :
    ∀ payloads : List Bytes, payload ∈ payloads →
      ∃ e2, buildCtxBatchR env opts payloads = .error e2
  | [], h => absurd h (by simp)
  | p :: rest, h => by
    by_cases hp : p = payload
    · subst hp
      exact ⟨e, buildCtxBatchR_cons_error env opts p rest e hdec⟩
    · have hmem : payload ∈ rest := by
        rcases List.mem_cons.mp h with h1 | h1
        · exact absurd h1.symm hp
        · exact h1
      cases hd : decodeAndCreateContextR env opts p with
      | error e0 => exact ⟨e0, buildCtxBatchR_cons_error env opts p rest e0 hd⟩
      | ok octx =>
        obtain ⟨e2, he2⟩ := buildCtxBatchR_error_of_mem env opts payload e hdec rest hmem
        cases octx with
        | none =>
          exact ⟨e2, by rw [buildCtxBatchR_cons_none env opts p rest hd]; exact he2⟩
        | some ctx =>
          exact ⟨e2, by rw [buildCtxBatchR_cons_some env opts p rest ctx hd, he2]⟩

theorem handleClientBatchR_error {Pk : Type} (env : EnvR Pk) (opts : Opts)
    (proc : List (PacketContext Pk) → List (PacketContext Pk)) (payloads : List Bytes)
    (e : DecodeErrR) (h : buildCtxBatchR env opts payloads = .error e) :
    handleClientBatchR env opts proc payloads = .error e := by
  unfold handleClientBatchR
  rw [h]

/-- Counterexample for C6 as stated: at a concrete input whose header
parses and whose id is in the pool, a recovered panic of Marshal makes
decodeAndCreateContext return an error that is none of the three listed
kinds (badHeader, unknownId, extraBytes). -/
theorem decodeAbortExactly_counterexample :
    panicEnvR.readHeader [5] = some (5, []) ∧
    panicEnvR.poolHas 5 = true ∧
    decodeAndCreateContextR panicEnvR panicOpts [5] = .error (.panicked 7) ∧
    DecodeErrR.panicked 7 ≠ .badHeader ∧
    (∀ n : Nat, DecodeErrR.panicked 7 ≠ .unknownId n) ∧
    (∀ n : Nat, DecodeErrR.panicked 7 ≠ .extraBytes n) :=
  ⟨rfl, rfl, rfl, by simp, fun n => by simp, fun n => by simp⟩

/-- C6 (amended): decodeAndCreateContext aborts the whole batch with an
error exactly in four cases: a header parse failure (badHeader), a packet
id outside the pool (unknownId), a decode that returns leaving bytes in
the buffer (extraBytes), or a panic raised while decoding or upgrading
that the deferred recover converts into an error (panicked); any payload
with such an error anywhere in a batch makes handleClientBatch return an
error, so no WriteBatch happens for that batch. -/
theorem decodeAbortExactlyR {Pk : Type} (env : EnvR Pk) (opts : Opts) (payload : Bytes) :
    (env.readHeader payload = none →
      decodeAndCreateContextR env opts payload = .error .badHeader) ∧
    (∀ (pid : Nat) (buf : Bytes),
      env.readHeader payload = some (pid, buf) → env.poolHas pid = false →
      decodeAndCreateContextR env opts payload = .error (.unknownId pid)) ∧
    (∀ (pid : Nat) (buf : Bytes) (pk : Pk) (rest : Bytes),
      env.readHeader payload = some (pid, buf) → env.poolHas pid = true →
      (opts.ClientDecode.contains pid ||
        (!opts.SyncProtocol && !(env.clientProtoID == env.currentProtocol))) = true →
      env.marshal pid buf = .ok (pk, rest) → 0 < rest.length →
      decodeAndCreateContextR env opts payload = .error (.extraBytes rest.length)) ∧
    (∀ (pid : Nat) (buf : Bytes) (p : Nat),
      env.readHeader payload = some (pid, buf) → env.poolHas pid = true →
      (opts.ClientDecode.contains pid ||
        (!opts.SyncProtocol && !(env.clientProtoID == env.currentProtocol))) = true →
      env.marshal pid buf = .error p →
      decodeAndCreateContextR env opts payload = .error (.panicked p)) ∧
    (∀ (pid : Nat) (buf : Bytes) (pk : Pk) (p : Nat),
      env.readHeader payload = some (pid, buf) → env.poolHas pid = true →
      (!opts.SyncProtocol && !(env.clientProtoID == env.currentProtocol)) = true →
      env.marshal pid buf = .ok (pk, []) → env.convertToLatest pk = .error p →
      decodeAndCreateContextR env opts payload = .error (.panicked p)) ∧
    (∀ e : DecodeErrR, decodeAndCreateContextR env opts payload = .error e →
      (e = .badHeader ∧ env.readHeader payload = none) ∨
      (∃ pid buf, env.readHeader payload = some (pid, buf) ∧
        env.poolHas pid = false ∧ e = .unknownId pid) ∨
      (∃ pid buf pk rest, env.readHeader payload = some (pid, buf) ∧
        env.poolHas pid = true ∧ env.marshal pid buf = .ok (pk, rest) ∧
        0 < rest.length ∧ e = .extraBytes rest.length) ∨
      (∃ pid buf, env.readHeader payload = some (pid, buf) ∧ env.poolHas pid = true ∧
        ((∃ p, env.marshal pid buf = .error p ∧ e = .panicked p) ∨
         (∃ pk p, env.marshal pid buf = .ok (pk, []) ∧
           env.convertToLatest pk = .error p ∧ e = .panicked p)))) ∧
    (∀ (proc : List (PacketContext Pk) → List (PacketContext Pk))
        (payloads : List Bytes) (e : DecodeErrR),
      decodeAndCreateContextR env opts payload = .error e → payload ∈ payloads →
      ∃ e2, handleClientBatchR env opts proc payloads = .error e2) := by
  refine ⟨?_, ?_, ?_, ?_, ?_, ?_, ?_⟩
  · exact decodeR_eq_of_header_none env opts payload
  · exact fun pid buf hh hpool => decodeR_unknown env opts payload pid buf hh hpool
  · intro pid buf pk rest hh hpool hcond hm hlen
    exact decodeR_extra env opts payload pid buf pk rest hh hpool
      (passRaw_eq_false opts.ClientDecode pid env.clientProtoID env.currentProtocol
        opts.SyncProtocol hcond) hm hlen
  · intro pid buf p hh hpool hcond hm
    exact decodeR_marshal_panic env opts payload pid buf p hh hpool
      (passRaw_eq_false opts.ClientDecode pid env.clientProtoID env.currentProtocol
        opts.SyncProtocol hcond) hm
  · intro pid buf pk p hh hpool hleg hm hconv
    exact decodeR_convert_panic env opts payload pid buf pk p hh hpool hleg hm hconv
  · intro e he
    cases hh : env.readHeader payload with
    | none =>
      rw [decodeR_eq_of_header_none env opts payload hh] at he
      injection he with h1
      exact Or.inl ⟨h1.symm, rfl⟩
    | some pb =>
      obtain ⟨pid, buf⟩ := pb
      cases hpool : env.poolHas pid with
      | false =>
        rw [decodeR_unknown env opts payload pid buf hh hpool] at he
        injection he with h1
        exact Or.inr (Or.inl ⟨pid, buf, rfl, hpool, h1.symm⟩)
      | true =>
        cases hpass : (!(opts.ClientDecode.contains pid) &&
            (opts.SyncProtocol || (env.clientProtoID == env.currentProtocol))) with
        | true =>
          rw [decodeR_passRaw env opts payload pid buf hh hpool hpass] at he
          exact Except.noConfusion he
        | false =>
          cases hm : env.marshal pid buf with
          | error p =>
            rw [decodeR_marshal_panic env opts payload pid buf p hh hpool hpass hm] at he
            injection he with h1
            exact Or.inr (Or.inr (Or.inr ⟨pid, buf, rfl, hpool,
              Or.inl ⟨p, hm, h1.symm⟩⟩))
          | ok pr =>
            obtain ⟨pk, rest⟩ := pr
            by_cases hlen : 0 < rest.length
            · rw [decodeR_extra env opts payload pid buf pk rest hh hpool hpass hm hlen] at he
              injection he with h1
              exact Or.inr (Or.inr (Or.inl
                ⟨pid, buf, pk, rest, rfl, hpool, hm, hlen, h1.symm⟩))
            · have hrest : rest = [] := by
                cases rest with
                | nil => rfl
                | cons a t => exact absurd (by simp) hlen
              subst hrest
              cases hleg : (!opts.SyncProtocol &&
                  !(env.clientProtoID == env.currentProtocol)) with
              | false =>
                rw [decodeR_sync_ok env opts payload pid buf pk hh hpool hpass hleg hm] at he
                exact Except.noConfusion he
              | true =>
                cases hconv : env.convertToLatest pk with
                | error p =>
                  rw [decodeR_convert_panic env opts payload pid buf pk p
                    hh hpool hleg hm hconv] at he
                  injection he with h1
                  exact Or.inr (Or.inr (Or.inr ⟨pid, buf, rfl, hpool,
                    Or.inr ⟨pk, p, hm, hconv, h1.symm⟩⟩))
                | ok l =>
                  cases l with
                  | nil =>
                    rw [decodeR_convert_nil env opts payload pid buf pk
                      hh hpool hleg hm hconv] at he
                    exact Except.noConfusion he
                  | cons u us =>
                    rw [decodeR_convert_cons env opts payload pid buf pk u us
                      hh hpool hleg hm hconv] at he
                    exact Except.noConfusion he
  · intro proc payloads e he hmem
    obtain ⟨e2, he2⟩ := buildCtxBatchR_error_of_mem env opts payload e he payloads hmem
    exact ⟨e2, handleClientBatchR_error env opts proc payloads e2 he2⟩

end Spectrum
